import Mathlib

/-!
Shallow embedding of floki's image-resolution subsystem
(`src/image.rs` and the path fixup in `src/config.rs`).

External effects (file reads, environment lookups, HTTP GET, YAML parsing,
subprocess spawning) are modelled as oracle fields of a `World` record that is
threaded through the effectful operations; a function whose result does not
depend on a given oracle field provably performs no such effect.

Rust `HashMap` header collections are modelled as association lists whose
iteration order is the list order; `yaml_rust::Yaml` is modelled by the
inductive `Yaml`, with `Index<usize>` / `Index<&str>` semantics (returning
`BadValue` on any failure) reproduced in `yamlIndexNat` / `yamlIndexStr`.
`serde` untagged-enum decoding (used on `Image` and `YamlSpec`) tries the
variants in declaration order and takes the first that matches, ignoring
unknown mapping keys (serde's documented behaviour for untagged struct
variants, which do not deny unknown fields).
-/

namespace Floki

/-- Model of a Rust `PathBuf`: an absolute flag plus a component list. -/
structure FPath where
  absolute : Bool
  components : List String
deriving DecidableEq, Repr

/-- Rust `Path::is_relative`. -/
def FPath.isRelative (p : FPath) : Bool := !p.absolute

/-- Rust `Path::parent`: drop the last component; `None` for a root or empty
path. (`Path::new("image.yaml").parent() == Some(Path::new(""))`.) -/
def FPath.parent (p : FPath) : Option FPath :=
  match p.components with
  | [] => none
  | _ => some ⟨p.absolute, p.components.dropLast⟩

/-- Rust `Path::join`: an absolute argument replaces the receiver. -/
def FPath.join (p q : FPath) : FPath :=
  if q.absolute then q else ⟨p.absolute, p.components ++ q.components⟩

/-- Rust `Path::display` / `to_string_lossy` for this path model. -/
def FPath.display (p : FPath) : String :=
  (if p.absolute then "/" else "") ++ String.intercalate "/" p.components

/-- Split a character list on a separator, keeping empty pieces
(the semantics of Rust's `str::split(char)`). -/
def splitCharAux (sep : Char) : List Char → List Char → List String
  | [], acc => [String.mk acc.reverse]
  | c :: rest, acc =>
      if c = sep then String.mk acc.reverse :: splitCharAux sep rest []
      else splitCharAux sep rest (c :: acc)

/-- Rust `str::split(char)` over a string. -/
def splitChar (sep : Char) (s : String) : List String :=
  splitCharAux sep s.toList []

/-- Parse a path string into the model (used where serde deserializes a
`PathBuf` from a YAML string). -/
def strToPath (s : String) : FPath :=
  match s.toList with
  | '/' :: rest => ⟨true, (splitCharAux '/' rest []).filter (fun c => c ≠ "")⟩
  | _ => ⟨false, (splitChar '/' s).filter (fun c => c ≠ "")⟩

/-- Model of `yaml_rust::Yaml` (aliases omitted). `badValue` is the sentinel
returned by failed indexing (`Yaml::BadValue`). -/
inductive Yaml where
  | scalarStr (s : String)
  | int (n : Int)
  | real (s : String)
  | boolean (b : Bool)
  | array (xs : List Yaml)
  | hash (entries : List (Yaml × Yaml))
  | null
  | badValue

/-- Rust `str::parse::<usize>`: an optional leading `+`, then one or more
ASCII digits, and the value must fit in 64 bits; anything else is `Err`. -/
def parseUsizeRust (s : String) : Option Nat :=
  let digits :=
    match s.toList with
    | '+' :: rest => rest
    | cs => cs
  if digits.isEmpty then none
  else if digits.all Char.isDigit then
    let n := digits.foldl (fun acc c => acc * 10 + (c.toNat - 48)) 0
    if n < 2 ^ 64 then some n else none
  else none

/-- Rust `usize as i64` (two's-complement wrap), as used by
`yaml_rust`'s `Index<usize>` when indexing a hash. -/
def usizeToI64 (n : Nat) : Int :=
  if n < 2 ^ 63 then (n : Int) else (n : Int) - 2 ^ 64

/-- `yaml_rust`'s `Index<usize> for Yaml`: positional lookup in an array,
integer-key lookup in a hash, `BadValue` otherwise or on a miss. -/
def yamlIndexNat (v : Yaml) (idx : Nat) : Yaml :=
  match v with
  | .array xs => xs.getD idx .badValue
  | .hash es =>
      match es.find? (fun p =>
          match p.1 with
          | .int m => m == usizeToI64 idx
          | _ => false) with
      | some p => p.2
      | none => .badValue
  | _ => .badValue

/-- `yaml_rust`'s `Index<&str> for Yaml`: string-key lookup in a hash,
`BadValue` otherwise or on a miss. -/
def yamlIndexStr (v : Yaml) (key : String) : Yaml :=
  match v with
  | .hash es =>
      match es.find? (fun p =>
          match p.1 with
          | .scalarStr s => s == key
          | _ => false) with
      | some p => p.2
      | none => .badValue
  | _ => .badValue

/-- One segment of the key-path walk in `Image::name` (image.rs:106-113):
prefer a `usize` index when the segment parses, else a `&str` index. -/
def yamlStep (v : Yaml) (seg : String) : Yaml :=
  match parseUsizeRust seg with
  | some x => yamlIndexNat v x
  | none => yamlIndexStr v seg

/-- `Yaml::as_str`: `Some` only on a string scalar. -/
def yamlAsStr (v : Yaml) : Option String :=
  match v with
  | .scalarStr s => some s
  | _ => none

/-- `BuildSpec` (image.rs:14-22). -/
structure BuildSpec where
  name : String
  dockerfile : FPath
  context : FPath
  target : Option String
deriving DecidableEq, Repr

/-- serde default for `BuildSpec.dockerfile`. -/
def default_dockerfile : FPath := strToPath "Dockerfile"

/-- serde default for `BuildSpec.context`. -/
def default_context : FPath := strToPath "."

/-- `YamlSpec` (image.rs:24-36); URLs are modelled as strings and the
`headers` map as an association list. -/
inductive YamlSpec where
  | File (file : FPath) (key : String)
  | Url (url : String) (key : String) (headers : Option (List (String × String)))
deriving DecidableEq, Repr

/-- The `key` field common to both `YamlSpec` variants (image.rs:69-72). -/
def YamlSpec.key : YamlSpec → String
  | .File _ k => k
  | .Url _ k _ => k

/-- The document-source string used in the key-lookup error message
(image.rs:119-122): the file path's display, or the URL. -/
def YamlSpec.source : YamlSpec → String
  | .File f _ => f.display
  | .Url u _ _ => u

/-- `ExecSpec` (image.rs:38-43). -/
structure ExecSpec where
  command : String
  args : List String
  image : String
deriving DecidableEq, Repr

/-- `Image` (image.rs:53-60). -/
inductive Image where
  | Name (s : String)
  | Build (build : BuildSpec)
  | Yaml (yaml : YamlSpec)
  | Exec (exec : ExecSpec)
deriving DecidableEq, Repr

/-- Model of a `std::process::ExitStatus`: `code` is `none` on signal
termination. -/
structure ExitStatus where
  code : Option Int
deriving DecidableEq, Repr

/-- `ExitStatus::success` (equivalently `code() == Some(0)`). -/
def ExitStatus.success (e : ExitStatus) : Bool := e.code == some 0

/-- The effect oracles available to the program.  `readFile` is
`fs::read_to_string`; `env` is `std::env::var`; `httpGet` performs a GET with
the given resolved headers and returns the body text (or a transport/status
error); `parseYaml` is `YamlLoader::load_from_str` followed by taking the
first document; `spawn` runs a program with arguments to completion and
yields its exit status (or a spawn error). -/
structure World where
  readFile : FPath → Except String String
  env : String → Option String
  httpGet : String → List (String × String) → Except String String
  parseYaml : String → Except String Yaml
  spawn : String → List String → Except String ExitStatus

/-- The header-resolution loop of the `Url` branch (image.rs:80-90): each
header value is an environment-variable name, resolved before the request is
sent; the first unset variable aborts with the context message. -/
def resolveHeaders (env : String → Option String) :
    List (String × String) → Except String (List (String × String))
  | [] => .ok []
  | (k, v) :: rest =>
      match env v with
      | none => .error ("Couldn't fetch environment variable " ++ v)
      | some value =>
          match resolveHeaders env rest with
          | .error e => .error e
          | .ok tail => .ok ((k, value) :: tail)

/-- The `let contents = match yaml { ... }` step of `Image::name`
(image.rs:75-100): read the file, or resolve headers and GET the URL. -/
def fetchContents (w : World) : YamlSpec → Except String String
  | .File f _ => w.readFile f
  | .Url u _ hdrs =>
      match hdrs with
      | some hs =>
          match resolveHeaders w.env hs with
          | .error e => .error e
          | .ok resolved => w.httpGet u resolved
      | none => w.httpGet u []

/-- `Image::name` (image.rs:64-127). -/
def Image.name (w : World) : Image → Except String String
  | .Name s => .ok s
  | .Build b => .ok (b.name ++ ":floki")
  | .Yaml spec =>
      match fetchContents w spec with
      | .error e => .error e
      | .ok contents =>
          match w.parseYaml contents with
          | .error e => .error e
          | .ok doc =>
              match yamlAsStr ((splitChar '.' spec.key).foldl yamlStep doc) with
              | some s => .ok s
              | none =>
                  .error ("Couldn't find key " ++ spec.key ++ " in file " ++ spec.source)
  | .Exec e => .ok e.image

/-- The error taxonomy reachable from `obtain_image` and
`image_exists_locally` (errors.rs via image.rs). `anyhowMsg` wraps
string-contexted `anyhow` errors from `Image::name`; `spawnError` wraps the
io error of a failed spawn/wait. -/
inductive FlokiErr where
  | anyhowMsg (s : String)
  | spawnError (s : String)
  | FailedToBuildImage (image : String) (processDescription : String) (exitStatus : ExitStatus)
  | FailedToCheckForImage (image : String) (error : String)
deriving DecidableEq, Repr

/-- Lift a `Image::name` result into `obtain_image`'s error type
(the `?` operator on an `anyhow::Result`). -/
def liftName (r : Except String String) : Except FlokiErr String :=
  match r with
  | .error e => .error (.anyhowMsg e)
  | .ok s => .ok s

/-- The argument list of the `docker build` invocation (image.rs:135-148). -/
def buildArgs (flokiRoot : FPath) (b : BuildSpec) (nm : String) : List String :=
  ["build", "-t", nm, "-f", (flokiRoot.join b.dockerfile).display]
    ++ (match b.target with
        | some t => ["--target", t]
        | none => [])
    ++ [(flokiRoot.join b.context).display]

/-- `Image::obtain_image` (image.rs:131-186). -/
def Image.obtain_image (w : World) (flokiRoot : FPath) (img : Image) :
    Except FlokiErr String :=
  match img with
  | .Build b =>
      match Image.name w img with
      | .error e => .error (.anyhowMsg e)
      | .ok nm =>
          match w.spawn "docker" (buildArgs flokiRoot b nm) with
          | .error e => .error (.spawnError e)
          | .ok exitStatus =>
              if exitStatus.success then liftName (Image.name w img)
              else
                match Image.name w img with
                | .error e => .error (.anyhowMsg e)
                | .ok nm2 => .error (.FailedToBuildImage nm2 "docker build" exitStatus)
  | .Exec ex =>
      match w.spawn ex.command ex.args with
      | .error e => .error (.spawnError e)
      | .ok exitStatus =>
          if exitStatus.success then liftName (Image.name w img)
          else
            match Image.name w img with
            | .error e => .error (.anyhowMsg e)
            | .ok nm => .error (.FailedToBuildImage nm ex.command exitStatus)
  | _ => liftName (Image.name w img)

/-- `image_exists_locally` (image.rs:215-228): a fixed probe of
`docker history docker:stable-dind`, with the `name` argument used only in
the spawn-failure error. -/
def image_exists_locally (w : World) (name : String) : Except FlokiErr Bool :=
  match w.spawn "docker" ["history", "docker:stable-dind"] with
  | .error e => .error (.FailedToCheckForImage name e)
  | .ok ret => .ok (ret.code == some 0)

/-- The relative-path fixup applied to `image.yaml.file` inside
`FlokiConfig::from_file` (config.rs:115-134), on the already-deserialized
image field.  NOTE: faithful to the source, where the `if let` binding
`file` shadows the function's config-path parameter, so the joined prefix is
the yaml file path's own parent. -/
def from_file_yaml_fixup (config_image : Image) : Except String Image :=
  match config_image with
  | .Yaml (.File f k) =>
      if f.isRelative then
        match f.parent with
        | none => .error "could not construct path to external yaml file"
        | some par => .ok (.Yaml (.File (par.join f) k))
      else .ok (.Yaml (.File f k))
  | img => .ok img

/-- serde deserialization of a `String` from a YAML value. -/
def asStr (v : Yaml) : Option String :=
  match v with
  | .scalarStr s => some s
  | _ => none

/-- Field lookup in a YAML mapping (serde map access during struct
deserialization); `none` when the value is not a mapping. -/
def getField (y : Yaml) (k : String) : Option Yaml :=
  match y with
  | .hash es =>
      match es.find? (fun p =>
          match p.1 with
          | .scalarStr s => s == k
          | _ => false) with
      | some p => some p.2
      | none => none
  | _ => none

/-- serde deserialization of `BuildSpec`: `name` required, `dockerfile` and
`context` defaulted, `target` optional; unknown fields ignored (no
`deny_unknown_fields`). -/
def decodeBuildSpec (y : Yaml) : Option BuildSpec :=
  match y with
  | .hash _ =>
      match (getField y "name").bind asStr with
      | none => none
      | some nm =>
          let dockerfile :=
            match getField y "dockerfile" with
            | some v => (asStr v).map strToPath
            | none => some default_dockerfile
          let context :=
            match getField y "context" with
            | some v => (asStr v).map strToPath
            | none => some default_context
          let target :=
            match getField y "target" with
            | some v => (asStr v).map some
            | none => some none
          match dockerfile, context, target with
          | some d, some c, some t => some ⟨nm, d, c, t⟩
          | _, _, _ => none
  | _ => none

/-- serde deserialization of a list of YAML string scalars. -/
def decodeStringList : List Yaml → Option (List String)
  | [] => some []
  | v :: rest =>
      match asStr v with
      | none => none
      | some s =>
          match decodeStringList rest with
          | none => none
          | some tail => some (s :: tail)

/-- serde deserialization of a string-to-string mapping. -/
def decodeStringPairs : List (Yaml × Yaml) → Option (List (String × String))
  | [] => some []
  | (k, v) :: rest =>
      match asStr k, asStr v with
      | some ks, some vs =>
          match decodeStringPairs rest with
          | none => none
          | some tail => some ((ks, vs) :: tail)
      | _, _ => none

/-- serde deserialization of the `File` variant of `YamlSpec`. -/
def decodeFileSpec (y : Yaml) : Option YamlSpec :=
  match (getField y "file").bind asStr, (getField y "key").bind asStr with
  | some f, some k => some (.File (strToPath f) k)
  | _, _ => none

/-- serde deserialization of the `Url` variant of `YamlSpec`. -/
def decodeUrlSpec (y : Yaml) : Option YamlSpec :=
  match (getField y "url").bind asStr, (getField y "key").bind asStr with
  | some u, some k =>
      match getField y "headers" with
      | none => some (.Url u k none)
      | some (.hash es) => (decodeStringPairs es).map (fun hs => .Url u k (some hs))
      | some _ => none
  | _, _ => none

/-- serde untagged deserialization of `YamlSpec`: `File` first, then `Url`. -/
def decodeYamlSpec (y : Yaml) : Option YamlSpec :=
  match decodeFileSpec y with
  | some s => some s
  | none => decodeUrlSpec y

/-- serde deserialization of `ExecSpec`: all three fields required. -/
def decodeExecSpec (y : Yaml) : Option ExecSpec :=
  match (getField y "command").bind asStr with
  | none => none
  | some cmd =>
      match getField y "args" with
      | some (.array xs) =>
          match decodeStringList xs, (getField y "image").bind asStr with
          | some args, some img => some ⟨cmd, args, img⟩
          | _, _ => none
      | _ => none

/-- serde untagged deserialization of `Image` (image.rs:53-60): the variants
are tried in declaration order — `Name`, `Build`, `Yaml`, `Exec` — and the
first that matches wins; a struct variant ignores unknown mapping keys. -/
def decodeImage (y : Yaml) : Option Image :=
  match asStr y with
  | some s => some (.Name s)
  | none =>
      match (getField y "build").bind decodeBuildSpec with
      | some b => some (.Build b)
      | none =>
          match (getField y "yaml").bind decodeYamlSpec with
          | some ys => some (.Yaml ys)
          | none => ((getField y "exec").bind decodeExecSpec).map .Exec

/-- The spec's testable-properties document `{a: [10, 20, {b: "x"}]}`. -/
def exDoc : Yaml :=
  .hash [(.scalarStr "a",
    .array [.int 10, .int 20, .hash [(.scalarStr "b", .scalarStr "x")]])]

/-- An image field holding both a `build` key and an `exec` key. -/
def exBothDoc : Yaml :=
  .hash [(.scalarStr "build", .hash [(.scalarStr "name", .scalarStr "foo")]),
         (.scalarStr "exec", .hash [(.scalarStr "command", .scalarStr "c"),
                                    (.scalarStr "args", .array []),
                                    (.scalarStr "image", .scalarStr "i")])]

/-- The `BuildSpec` that `exBothDoc`'s `build` field decodes to. -/
def exBuildSpec : BuildSpec := ⟨"foo", strToPath "Dockerfile", strToPath ".", none⟩

/-- A concrete world whose file reads yield a document parsing to `exDoc`. -/
def docWorld : World :=
  ⟨fun _ => .ok "contents", fun _ => none, fun _ _ => .error "net",
   fun _ => .ok exDoc, fun _ _ => .error "spawn"⟩

/-- A concrete world whose every spawn exits 0. -/
def okSpawnWorld : World :=
  ⟨fun _ => .error "io", fun _ => none, fun _ _ => .error "net",
   fun _ => .error "yaml", fun _ _ => .ok ⟨some 0⟩⟩

/-- A concrete world whose every spawn exits 1. -/
def exit1SpawnWorld : World :=
  ⟨fun _ => .error "io", fun _ => none, fun _ _ => .error "net",
   fun _ => .error "yaml", fun _ _ => .ok ⟨some 1⟩⟩

/-- A concrete world whose every spawn fails outright. -/
def spawnErrWorld : World :=
  ⟨fun _ => .error "io", fun _ => none, fun _ _ => .error "net",
   fun _ => .error "yaml", fun _ _ => .error "no docker"⟩

/-- C1: the claim says the relative `File` document path is joined under the
configuration file's directory.  The code (config.rs:120-134) instead joins
the relative path with its OWN parent (the `if let` binding `file` shadows
the config-path parameter), contradicting the comment directly above it: a
bare `image.yaml` is left unchanged (still working-directory-relative) and a
nested `sub/image.yaml` becomes `sub/sub/image.yaml`, never the claimed
`/cfg/dir/...` paths. -/
theorem from_file_relative_path_bug :
    from_file_yaml_fixup (.Yaml (.File (strToPath "image.yaml") "key"))
      = .ok (.Yaml (.File (strToPath "image.yaml") "key")) ∧
    from_file_yaml_fixup (.Yaml (.File (strToPath "sub/image.yaml") "key"))
      = .ok (.Yaml (.File (strToPath "sub/sub/image.yaml") "key")) ∧
    FPath.parent (strToPath "/cfg/dir/floki.yaml") = some (strToPath "/cfg/dir") ∧
    FPath.join (strToPath "/cfg/dir") (strToPath "image.yaml")
      = strToPath "/cfg/dir/image.yaml" ∧
    strToPath "image.yaml" ≠ strToPath "/cfg/dir/image.yaml" ∧
    strToPath "sub/sub/image.yaml" ≠ strToPath "/cfg/dir/sub/image.yaml" := by
  exact ⟨rfl, rfl, rfl, rfl, by decide, by decide⟩

/-- C2 counterexample: an image field carrying both a `build` key and an
`exec` key does NOT fail to decode: serde's untagged first-match rule picks
the `Build` variant and ignores the `exec` key. -/
theorem decodeImage_both_keys_cex :
    decodeImage exBothDoc = some (.Build exBuildSpec) ∧
    decodeImage exBothDoc ≠ none := by
  refine ⟨rfl, ?_⟩
  decide

/-- C2 (amended): whenever the image field's `build` key decodes as a
`BuildSpec`, untagged decoding returns the `Build` variant — the first
declared matching shape — regardless of any other keys (such as `exec`)
present in the mapping. -/
theorem decodeImage_build_precedence (y : Yaml) (b : BuildSpec)
    (hb : (getField y "build").bind decodeBuildSpec = some b) :
    decodeImage y = some (.Build b) := by
  cases y
  case hash entries => simp [decodeImage, asStr, hb]
  all_goals simp [getField] at hb

/-- C2 witness: the amended rule at the concrete both-keys document. -/
theorem decodeImage_build_precedence_witness :
    (getField exBothDoc "build").bind decodeBuildSpec = some exBuildSpec ∧
    decodeImage exBothDoc = some (.Build exBuildSpec) :=
  ⟨rfl, decodeImage_build_precedence exBothDoc exBuildSpec rfl⟩

/-- C3: for every `Build` spec the resolved name is the declared name with
the fixed `:floki` tag appended, whatever the dockerfile, context and target
fields hold, and in every world (no effect is consulted). -/
theorem build_name_fixed_tag (w : World) (b : BuildSpec) (d c : FPath)
    (t : Option String) :
    Image.name w (.Build b) = .ok (b.name ++ ":floki") ∧
    Image.name w (.Build ⟨b.name, d, c, t⟩) = .ok (b.name ++ ":floki") :=
  ⟨rfl, rfl⟩

/-- C8: `name` is pure and deterministic on the `Name`, `Build` and `Exec`
variants: its result is the same in any two worlds (so no subprocess,
file-system or network oracle can influence it), `Name` returns the stored
string, `Exec` returns the declared `image` field verbatim (the command and
args are never consulted, let alone spawned). -/
theorem name_pure_deterministic (w w' : World) (s : String) (b : BuildSpec)
    (e : ExecSpec) :
    Image.name w (.Name s) = .ok s ∧
    Image.name w (.Exec e) = .ok e.image ∧
    Image.name w (.Build b) = .ok (b.name ++ ":floki") ∧
    Image.name w (.Name s) = Image.name w' (.Name s) ∧
    Image.name w (.Build b) = Image.name w' (.Build b) ∧
    Image.name w (.Exec e) = Image.name w' (.Exec e) :=
  ⟨rfl, rfl, rfl, rfl, rfl, rfl⟩

/-- Helper: evaluating `Image::name` on a `File` spec once the file read and
the YAML parse are known reduces to the key-path walk over the document. -/
theorem name_file_eval (w : World) (file : FPath) (contents key : String)
    (doc : Yaml) (hread : w.readFile file = .ok contents)
    (hparse : w.parseYaml contents = .ok doc) :
    Image.name w (.Yaml (.File file key)) =
      match yamlAsStr ((splitChar '.' key).foldl yamlStep doc) with
      | some s => .ok s
      | none => .error ("Couldn't find key " ++ key ++ " in file " ++ file.display) := by
  simp only [Image.name, fetchContents, hread, hparse, YamlSpec.key, YamlSpec.source]

/-- C4: each key-path segment is first parsed as a non-negative integer and,
on success, used as a `usize` index into the current node; only on parse
failure is the segment used as a literal string key; and on the document
`{a: [10, 20, {b: "x"}]}` the key path `a.2.b` resolves to `"x"`. -/
theorem keypath_numeric_first (w : World) (file : FPath) (contents : String)
    (v : Yaml) (seg segN : String) (n : Nat)
    (hn : parseUsizeRust seg = some n)
    (hnone : parseUsizeRust segN = none)
    (hread : w.readFile file = .ok contents)
    (hparse : w.parseYaml contents = .ok exDoc) :
    yamlStep v seg = yamlIndexNat v n ∧
    yamlStep v segN = yamlIndexStr v segN ∧
    Image.name w (.Yaml (.File file "a.2.b")) = .ok "x" := by
  refine ⟨by simp [yamlStep, hn], by simp [yamlStep, hnone], ?_⟩
  rw [name_file_eval w file contents "a.2.b" exDoc hread hparse]
  rfl

/-- C4 witness: segment `2` is taken as index 2 and segment `b` as a map
key, and `a.2.b` resolves to `"x"` in a concrete world serving `exDoc`. -/
theorem keypath_numeric_first_witness :
    yamlStep exDoc "2" = yamlIndexNat exDoc 2 ∧
    yamlStep exDoc "b" = yamlIndexStr exDoc "b" ∧
    Image.name docWorld (.Yaml (.File (strToPath "doc.yaml") "a.2.b")) = .ok "x" :=
  keypath_numeric_first docWorld (strToPath "doc.yaml") "contents" exDoc
    "2" "b" 2 rfl rfl rfl rfl

/-- C5: on the document `{a: [10, 20, {b: "x"}]}`, the key path `a.5`
(array index out of range), `a.2.c` (absent map key) and `a` (terminal node
not a string scalar) all make `name` fail, with an error message carrying
the full key path and the document source. -/
theorem keypath_failures (w : World) (file : FPath) (contents : String)
    (hread : w.readFile file = .ok contents)
    (hparse : w.parseYaml contents = .ok exDoc) :
    Image.name w (.Yaml (.File file "a.5"))
      = .error ("Couldn't find key " ++ "a.5" ++ " in file " ++ file.display) ∧
    Image.name w (.Yaml (.File file "a.2.c"))
      = .error ("Couldn't find key " ++ "a.2.c" ++ " in file " ++ file.display) ∧
    Image.name w (.Yaml (.File file "a"))
      = .error ("Couldn't find key " ++ "a" ++ " in file " ++ file.display) := by
  refine ⟨?_, ?_, ?_⟩ <;>
    · rw [name_file_eval w file contents _ exDoc hread hparse]
      rfl

/-- C5 witness: the three failing key paths in a concrete world serving
`exDoc` from the file `doc.yaml`. -/
theorem keypath_failures_witness :
    Image.name docWorld (.Yaml (.File (strToPath "doc.yaml") "a.5"))
      = .error ("Couldn't find key " ++ "a.5" ++ " in file "
          ++ (strToPath "doc.yaml").display) ∧
    Image.name docWorld (.Yaml (.File (strToPath "doc.yaml") "a.2.c"))
      = .error ("Couldn't find key " ++ "a.2.c" ++ " in file "
          ++ (strToPath "doc.yaml").display) ∧
    Image.name docWorld (.Yaml (.File (strToPath "doc.yaml") "a"))
      = .error ("Couldn't find key " ++ "a" ++ " in file "
          ++ (strToPath "doc.yaml").display) :=
  keypath_failures docWorld (strToPath "doc.yaml") "contents" rfl rfl

/-- C6: obtaining a `Build` image runs `docker build` with the computed
`<name>:floki`; an exit status of 0 yields `Ok` of that name, and any other
exit status (non-zero code or signal) yields `FailedToBuildImage` carrying
the image name, the description `docker build`, and the raw exit status. -/
theorem obtain_build_exit_mapping (w w' : World) (root : FPath)
    (b : BuildSpec) (e0 e1 : ExitStatus)
    (h0 : w.spawn "docker" (buildArgs root b (b.name ++ ":floki")) = .ok e0)
    (hs : e0.code = some 0)
    (h1 : w'.spawn "docker" (buildArgs root b (b.name ++ ":floki")) = .ok e1)
    (hf : e1.code ≠ some 0) :
    Image.obtain_image w root (.Build b) = .ok (b.name ++ ":floki") ∧
    Image.obtain_image w' root (.Build b)
      = .error (.FailedToBuildImage (b.name ++ ":floki") "docker build" e1) := by
  constructor
  · simp [Image.obtain_image, Image.name, h0, ExitStatus.success, hs, liftName]
  · simp [Image.obtain_image, Image.name, h1, ExitStatus.success, hf, liftName]

/-- C6 witness: a world whose build exits 0 yields `Ok "foo:floki"`, and one
whose build exits 1 yields the typed failure with that exit status. -/
theorem obtain_build_exit_mapping_witness :
    Image.obtain_image okSpawnWorld (strToPath "/root") (.Build exBuildSpec)
      = .ok (exBuildSpec.name ++ ":floki") ∧
    Image.obtain_image exit1SpawnWorld (strToPath "/root") (.Build exBuildSpec)
      = .error (.FailedToBuildImage (exBuildSpec.name ++ ":floki") "docker build"
          ⟨some 1⟩) :=
  obtain_build_exit_mapping okSpawnWorld exit1SpawnWorld (strToPath "/root")
    exBuildSpec ⟨some 0⟩ ⟨some 1⟩ rfl rfl rfl (by decide)

/-- Helper: the header-resolution loop aborts at the first header whose
named environment variable is unset, with the context message naming it. -/
theorem resolveHeaders_missing (env : String → Option String)
    (pre : List (String × String)) (k v : String)
    (rest : List (String × String))
    (hpre : ∀ p ∈ pre, (env p.2).isSome = true)
    (hv : env v = none) :
    resolveHeaders env (pre ++ (k, v) :: rest)
      = .error ("Couldn't fetch environment variable " ++ v) := by
  revert hpre
  induction pre with
  | nil => intro _; simp [resolveHeaders, hv]
  | cons p ps ih =>
      intro hpre
      obtain ⟨pk, pv⟩ := p
      have hps : ∀ q ∈ ps, (env q.2).isSome = true := fun q hq =>
        hpre q (List.mem_cons_of_mem _ hq)
      obtain ⟨val, hval⟩ :=
        Option.isSome_iff_exists.mp (hpre ⟨pk, pv⟩ (List.mem_cons_self _ _))
      simp [resolveHeaders, hval, ih hps]

/-- C7: a `Url` spec with a declared header whose environment variable is
unset makes `name` fail with an error naming that variable; the world `w`
(and in particular its `httpGet` oracle) is universally quantified and never
consulted, so the failure precedes any network request. -/
theorem url_missing_env_fails (w : World) (url key : String)
    (pre : List (String × String)) (k v : String)
    (rest : List (String × String))
    (hpre : ∀ p ∈ pre, (w.env p.2).isSome = true)
    (hv : w.env v = none) :
    Image.name w (.Yaml (.Url url key (some (pre ++ (k, v) :: rest))))
      = .error ("Couldn't fetch environment variable " ++ v) := by
  simp only [Image.name, fetchContents,
    resolveHeaders_missing w.env pre k v rest hpre hv]

/-- C7 witness: header `TOKEN → MY_VAR` with `MY_VAR` unset (every variable
is unset in `docWorld`) fails naming `MY_VAR`. -/
theorem url_missing_env_fails_witness :
    Image.name docWorld
        (.Yaml (.Url "https://example.com/example.yaml" "variables.RUST-IMAGE"
          (some [("TOKEN", "MY_VAR")])))
      = .error ("Couldn't fetch environment variable " ++ "MY_VAR") :=
  url_missing_env_fails docWorld "https://example.com/example.yaml"
    "variables.RUST-IMAGE" [] "TOKEN" "MY_VAR" [] (by simp) rfl

/-- C9: whenever `obtain_image` succeeds it returns exactly the string
`name` computes; on the `Name` and `Yaml` variants it is literally the
lifted `name` computation, and its result is unchanged under any
modification of the world's `spawn` oracle (the four non-subprocess oracles
agreeing is enough), so no subprocess effect is involved there. -/
theorem obtain_refines_name (w w₂ : World) (root : FPath) (img : Image)
    (s nm : String) (ys : YamlSpec)
    (h : Image.obtain_image w root img = .ok s)
    (hrf : w₂.readFile = w.readFile) (henv : w₂.env = w.env)
    (hget : w₂.httpGet = w.httpGet) (hpy : w₂.parseYaml = w.parseYaml) :
    Image.name w img = .ok s ∧
    Image.obtain_image w root (.Name nm) = liftName (Image.name w (.Name nm)) ∧
    Image.obtain_image w root (.Yaml ys) = liftName (Image.name w (.Yaml ys)) ∧
    Image.obtain_image w₂ root (.Name nm) = Image.obtain_image w root (.Name nm) ∧
    Image.obtain_image w₂ root (.Yaml ys) = Image.obtain_image w root (.Yaml ys) := by
  refine ⟨?_, rfl, rfl, rfl, ?_⟩
  · cases img with
    | Name s' => simpa [Image.obtain_image, liftName, Image.name] using h
    | Build b =>
        simp only [Image.obtain_image, Image.name] at h
        rcases hsp : w.spawn "docker" (buildArgs root b (b.name ++ ":floki"))
          with e | st
        · rw [hsp] at h; simp at h
        · rw [hsp] at h
          by_cases hsucc : st.success
          · simp only [hsucc, if_true, liftName, Image.name] at h
            simpa [Image.name] using h
          · simp [hsucc] at h
    | Yaml ys' =>
        have hl : liftName (Image.name w (.Yaml ys')) = .ok s := h
        cases hn : Image.name w (.Yaml ys') with
        | error e => rw [hn] at hl; simp [liftName] at hl
        | ok t => rw [hn] at hl; simpa [liftName] using hl
    | Exec ex =>
        simp only [Image.obtain_image] at h
        rcases hsp : w.spawn ex.command ex.args with e | st
        · rw [hsp] at h; simp at h
        · rw [hsp] at h
          by_cases hsucc : st.success
          · simp only [hsucc, if_true, liftName, Image.name] at h
            simpa [Image.name] using h
          · simp [hsucc, Image.name] at h
  · show liftName (Image.name w₂ (.Yaml ys)) = liftName (Image.name w (.Yaml ys))
    congr 1
    cases ys with
    | File f k => simp only [Image.name, fetchContents, hrf, hpy]
    | Url u k hdrs =>
        cases hdrs with
        | none => simp only [Image.name, fetchContents, hget, hpy]
        | some hs => simp only [Image.name, fetchContents, henv, hget, hpy]

/-- C9 witness: a `Name` spec obtained in a concrete world. -/
theorem obtain_refines_name_witness :
    Image.name okSpawnWorld (.Name "foo") = .ok "foo" ∧
    Image.obtain_image okSpawnWorld (strToPath "/root") (.Name "bar")
      = liftName (Image.name okSpawnWorld (.Name "bar")) ∧
    Image.obtain_image okSpawnWorld (strToPath "/root")
        (.Yaml (.File (strToPath "f") "k"))
      = liftName (Image.name okSpawnWorld (.Yaml (.File (strToPath "f") "k"))) ∧
    Image.obtain_image okSpawnWorld (strToPath "/root") (.Name "bar")
      = Image.obtain_image okSpawnWorld (strToPath "/root") (.Name "bar") ∧
    Image.obtain_image okSpawnWorld (strToPath "/root")
        (.Yaml (.File (strToPath "f") "k"))
      = Image.obtain_image okSpawnWorld (strToPath "/root")
          (.Yaml (.File (strToPath "f") "k")) :=
  obtain_refines_name okSpawnWorld okSpawnWorld (strToPath "/root")
    (.Name "foo") "foo" "bar" (.File (strToPath "f") "k") rfl rfl rfl rfl rfl

/-- C10: `image_exists_locally` probes the fixed `docker history
docker:stable-dind` subprocess: when that probe spawns, the result is
`Ok true` exactly when it exits with code 0, is independent of the `name`
argument, and depends on the world only through the fixed probe; when the
spawn itself fails, the error carries the `name` argument. -/
theorem image_exists_locally_fixed_probe (w w₂ w₃ : World) (n n' : String)
    (st : ExitStatus) (e : String)
    (h : w.spawn "docker" ["history", "docker:stable-dind"] = .ok st)
    (h₂ : w₂.spawn "docker" ["history", "docker:stable-dind"] = .error e)
    (hagree : w₃.spawn "docker" ["history", "docker:stable-dind"]
      = w.spawn "docker" ["history", "docker:stable-dind"]) :
    (image_exists_locally w n = .ok true ↔ st.code = some 0) ∧
    image_exists_locally w n = image_exists_locally w n' ∧
    image_exists_locally w₂ n = .error (.FailedToCheckForImage n e) ∧
    image_exists_locally w₃ n = image_exists_locally w n := by
  refine ⟨?_, ?_, ?_, ?_⟩
  · simp [image_exists_locally, h]
  · simp [image_exists_locally, h]
  · simp [image_exists_locally, h₂]
  · simp [image_exists_locally, hagree]

/-- C10 witness: concrete worlds with a succeeding probe (exit 0) and a
failing spawn. -/
theorem image_exists_locally_fixed_probe_witness :
    (image_exists_locally okSpawnWorld "img" = .ok true
      ↔ (⟨some 0⟩ : ExitStatus).code = some 0) ∧
    image_exists_locally okSpawnWorld "img"
      = image_exists_locally okSpawnWorld "other" ∧
    image_exists_locally spawnErrWorld "img"
      = .error (.FailedToCheckForImage "img" "no docker") ∧
    image_exists_locally okSpawnWorld "img"
      = image_exists_locally okSpawnWorld "img" :=
  image_exists_locally_fixed_probe okSpawnWorld spawnErrWorld okSpawnWorld
    "img" "other" ⟨some 0⟩ "no docker" rfl rfl rfl

end Floki
